import Mathlib

/-!
Shallow embedding of the core data pipeline of the World Bank Debt Analysis
dashboard (`app.py`): the per-country Excel loader, the preprocessing step
(drop missing rows, parse years, coerce debt amounts, sort, grouped
year-over-year percent change), the filter engine, and the aggregation layer
(sum / mean / idxmax / pivot / nlargest).

Pandas floating values are modelled exactly: a cell of a float column is
either NaN (which doubles as "missing"), +inf, -inf, or a rational number.
-/

namespace DebtApp

/-- A raw spreadsheet cell: missing (NaN), a number, or a text entry. -/
inductive Cell where
  | na : Cell
  | num (q : ℚ) : Cell
  | str (s : String) : Cell
deriving DecidableEq

/-- A row of one country's source spreadsheet: a year column and a
debt-amount column (`data`), as read by `pd.read_excel`. -/
structure SrcRow where
  year : Cell
  data : Cell
deriving DecidableEq

/-- A row of the combined table produced by `load_all_data`: the source row
tagged with `df['Country']` and `df['Country_Code']` (app.py lines 101-102). -/
structure RawRow where
  country : String
  code : String
  year : Cell
  data : Cell
deriving DecidableEq

/-- A pandas float value: NaN (also the missing marker), signed infinity,
or a finite value (modelled as a rational). -/
inductive FVal where
  | nan : FVal
  | posInf : FVal
  | negInf : FVal
  | fin (q : ℚ) : FVal
deriving DecidableEq

/-- A preprocessed row after year parsing and numeric coercion. -/
structure Row where
  country : String
  code : String
  year : Int
  data : FVal
deriving DecidableEq

/-- A row of the Canonical Table: a preprocessed row together with the
derived `YoY Growth %` column. -/
structure GRow where
  country : String
  code : String
  year : Int
  data : FVal
  growth : FVal
deriving DecidableEq

/-- `COUNTRY_MAPPING` of app.py lines 62-69: display name to code, in
insertion order. -/
def COUNTRY_MAPPING : List (String × String) :=
  [("Bangladesh", "BGD"), ("Bhutan", "BTN"), ("Sri Lanka", "LKA"),
   ("Maldives", "MDV"), ("Myanmar", "MMR"), ("Nepal", "NPL")]

/-- The display names of all known countries. -/
def allCountries : List String := COUNTRY_MAPPING.map Prod.fst

/-- Tag every row of one country's table with that country's display name
and code (app.py lines 101-102). -/
def tagRow (p : String × String) (r : SrcRow) : RawRow :=
  { country := p.1, code := p.2, year := r.year, data := r.data }

/-- `load_all_data` (app.py lines 94-114): `src` maps a country code to the
rows of its spreadsheet, or `none` when the read raises (the exception is
caught in `load_country_data`, reported with `st.error`, and the country is
skipped).  Successfully read tables are tagged and concatenated in
`COUNTRY_MAPPING` order; if no country loads, the function returns `None`. -/
def load_all_data (src : String → Option (List SrcRow)) : Option (List RawRow) :=
  let parts := COUNTRY_MAPPING.filterMap
    (fun p => (src p.2).map (fun rs => rs.map (tagRow p)))
  if parts.isEmpty then none else some parts.flatten

/-- Parse a run of decimal digits into a number, failing on any non-digit
character. -/
def parseNatL : List Char → Nat → Option Nat
  | [], acc => some acc
  | c :: cs, acc =>
    if 48 ≤ c.toNat && c.toNat ≤ 57 then parseNatL cs (acc * 10 + (c.toNat - 48))
    else none

/-- A non-empty all-digit string parses as a number; anything else does not. -/
def parseNat? (s : String) : Option Nat :=
  match s.data with
  | [] => none
  | c :: cs => parseNatL (c :: cs) 0

/-- `pd.to_datetime(df['year'], format='%Y')` on one cell: a numeric cell
holding an integer parses as that year; a text cell parses only when it is a
(non-empty) digit string; anything else fails to parse, which makes
`to_datetime` raise for the whole column. -/
def parseYear : Cell → Option Int
  | Cell.na => none
  | Cell.num q => if q.den = 1 then some q.num else none
  | Cell.str s => (parseNat? s).map Int.ofNat

/-- The spellings the pandas numeric parser reads as positive infinity. -/
def posInfSpellings : List String :=
  ["inf", "Inf", "INF", "Infinity", "infinity", "+inf", "+Inf", "+Infinity"]

/-- The spellings the pandas numeric parser reads as negative infinity. -/
def negInfSpellings : List String :=
  ["-inf", "-Inf", "-INF", "-Infinity", "-infinity"]

/-- `pd.to_numeric(df['data'], errors='coerce')` on one cell: numeric cells
pass through; text parses as a number when it is a digit string, and as a
signed infinity on the infinity spellings the pandas parser accepts
(numerals overflowing the float range, which also coerce to infinity, are
represented by these spelled forms); everything else becomes NaN. -/
def toNumericCoerce : Cell → FVal
  | Cell.na => FVal.nan
  | Cell.num q => FVal.fin q
  | Cell.str s =>
    if s ∈ posInfSpellings then FVal.posInf
    else if s ∈ negInfSpellings then FVal.negInf
    else
      match parseNat? s with
      | some n => FVal.fin (n : ℚ)
      | none => FVal.nan

/-- A row survives `df.dropna()` iff no cell of it is missing (the two tag
columns are strings and never missing). -/
def rowComplete (r : RawRow) : Bool :=
  decide (r.year ≠ Cell.na) && decide (r.data ≠ Cell.na)

/-- `df.dropna()` (app.py line 131). -/
def dropna (rows : List RawRow) : List RawRow := rows.filter rowComplete

/-- `pd.to_datetime(df['year'], format='%Y')` over the whole column
(app.py line 135), combined with the numeric coercion of the debt column
(line 139, which never raises): if any year cell fails to parse the whole
preprocessing step raises, modelled as `none`. -/
def parseYears : List RawRow → Option (List Row)
  | [] => some []
  | r :: rs =>
    match parseYear r.year, parseYears rs with
    | some y, some rest =>
      some ({ country := r.country, code := r.code, year := y,
              data := toNumericCoerce r.data } :: rest)
    | _, _ => none

/-- Code-point lexicographic order on character lists: how Python (and
hence pandas `sort_values` on an object column) compares strings. -/
def strLtL : List Char → List Char → Bool
  | [], [] => false
  | [], _ :: _ => true
  | _ :: _, [] => false
  | c :: cs, d :: ds =>
    if c.toNat < d.toNat then true
    else if d.toNat < c.toNat then false
    else strLtL cs ds

/-- Code-point lexicographic order on strings. -/
def strLt (a b : String) : Bool := strLtL a.data b.data

/-- Sort key order for `df.sort_values(['Country', 'year'])` (app.py
line 142): lexicographic on (country, year); pandas multi-key sort is
stable. -/
def keyLE (a b : Row) : Bool :=
  strLt a.country b.country ||
    (decide (a.country = b.country) && decide (a.year ≤ b.year))

/-- Stable insertion into a key-sorted list: the inserted row goes before
the first row it is `keyLE`-below, so equal keys keep their original order. -/
def insertRow (x : Row) : List Row → List Row
  | [] => [x]
  | y :: ys => if keyLE x y then x :: y :: ys else y :: insertRow x ys

/-- Stable sort by (country, year), modelling `df.sort_values(['Country',
'year'])`. -/
def sortRows : List Row → List Row
  | [] => []
  | x :: xs => insertRow x (sortRows xs)

/-- Division of rationals, written with `Rat.divInt` so that it evaluates
inside the kernel; `qdiv_eq_div` below identifies it with field division. -/
def qdiv (a b : ℚ) : ℚ := Rat.divInt (a.num * (b.den : Int)) (b.num * (a.den : Int))

/-- Subtraction of one, written with `Rat.divInt`; equals `q - 1`. -/
def qsub1 (q : ℚ) : ℚ := Rat.divInt (q.num - (q.den : Int)) (q.den : Int)

/-- Multiplication by one hundred, written with `Rat.divInt`; equals
`q * 100`. -/
def qmul100 (q : ℚ) : ℚ := Rat.divInt (q.num * 100) (q.den : Int)

/-- Addition of rationals, written with `Rat.divInt`; equals `a + b`. -/
def qadd (a b : ℚ) : ℚ :=
  Rat.divInt (a.num * (b.den : Int) + b.num * (a.den : Int)) ((a.den : Int) * (b.den : Int))

/-- Sum of a list of rationals via `qadd`; equals `List.sum`. -/
def qsum (l : List ℚ) : ℚ := l.foldr qadd 0

/-- Pandas float division as used by `pct_change` (which computes
`filled / filled.shift() - 1`): NaN is absorbing, a nonzero value divided by
zero gives a signed infinity, `0 / 0` gives NaN. -/
def fdiv : FVal → FVal → FVal
  | FVal.nan, _ => FVal.nan
  | _, FVal.nan => FVal.nan
  | FVal.fin a, FVal.fin b =>
    if b = 0 then
      (if a = 0 then FVal.nan else if 0 < a then FVal.posInf else FVal.negInf)
    else FVal.fin (qdiv a b)
  | FVal.fin _, FVal.posInf => FVal.fin 0
  | FVal.fin _, FVal.negInf => FVal.fin 0
  | FVal.posInf, FVal.posInf => FVal.nan
  | FVal.posInf, FVal.negInf => FVal.nan
  | FVal.negInf, FVal.posInf => FVal.nan
  | FVal.negInf, FVal.negInf => FVal.nan
  | FVal.posInf, FVal.fin b => if b < 0 then FVal.negInf else FVal.posInf
  | FVal.negInf, FVal.fin b => if b < 0 then FVal.posInf else FVal.negInf

/-- Subtract 1 (the `- 1` of `pct_change`). -/
def fsub1 : FVal → FVal
  | FVal.nan => FVal.nan
  | FVal.posInf => FVal.posInf
  | FVal.negInf => FVal.negInf
  | FVal.fin q => FVal.fin (qsub1 q)

/-- Multiply by 100 (the `* 100` of app.py line 143). -/
def fmul100 : FVal → FVal
  | FVal.nan => FVal.nan
  | FVal.posInf => FVal.posInf
  | FVal.negInf => FVal.negInf
  | FVal.fin q => FVal.fin (qmul100 q)

/-- Per-country scan state: the last forward-filled value seen for each
country, most recent first; an unseen country reads as NaN (the value
`shift` produces before a group's first row). -/
def lookupD (st : List (String × FVal)) (c : String) : FVal :=
  match st.find? (fun p => p.1 = c) with
  | some p => p.2
  | none => FVal.nan

/-- Forward-fill of one entry: a NaN data value is replaced by the previous
filled value of the same group (pandas `fill_method='pad'`). -/
def fillVal (prev : FVal) (r : Row) : FVal :=
  if r.data = FVal.nan then prev else r.data

/-- One output row of the percent-change scan: the input row plus
`(filled / prev - 1) * 100` as its growth value. -/
def mkGrow (prev : FVal) (r : Row) : GRow :=
  { country := r.country, code := r.code, year := r.year, data := r.data,
    growth := fmul100 (fsub1 (fdiv (fillVal prev r) prev)) }

/-- `df.groupby('Country')['data'].pct_change() * 100` (app.py line 143),
with pandas' default `fill_method='pad'`: within each country group the data
series is forward-filled, then each entry is divided by the previous filled
entry, minus one, times one hundred.  The first row of each group gets NaN. -/
def growthScan : List Row → List (String × FVal) → List GRow
  | [], _ => []
  | r :: rs, st =>
    mkGrow (lookupD st r.country) r ::
      growthScan rs ((r.country, fillVal (lookupD st r.country) r) :: st)

/-- The per-country percent-change scan in isolation: `prev` is the last
forward-filled value of this country (NaN before the first row). -/
def scan1 (prev : FVal) : List Row → List GRow
  | [] => []
  | r :: rs => mkGrow prev r :: scan1 (fillVal prev r) rs

/-- `preprocess_data` (app.py lines 125-145): drop rows with missing values,
parse the year column (raising — `none` — on a malformed year), coerce the
debt column to numeric (malformed entries become NaN), sort by (country,
year), and derive the grouped year-over-year growth column. -/
def preprocess_data (rows : List RawRow) : Option (List GRow) :=
  (parseYears (dropna rows)).map (fun rs => growthScan (sortRows rs) [])

/-- The Filter Engine (app.py lines 176-180): keep the rows whose country is
in the selection and whose year lies in the inclusive slider range. -/
def filtered_data (t : List GRow) (sel : List String) (lo hi : Int) : List GRow :=
  t.filter (fun r =>
    decide (r.country ∈ sel) && decide (lo ≤ r.year) && decide (r.year ≤ hi))

/-- The finite part of a float value; NaN (skipped by pandas sums) and the
infinities read as 0 here, callers establish absence of infinities. -/
def finOrZero : FVal → ℚ
  | FVal.fin q => q
  | _ => 0

/-- Pandas `Series.sum()` with its default `skipna=True, min_count=0`:
NaN entries are dropped, an empty or all-NaN series sums to 0, and any
surviving infinity dominates (one of each sign gives NaN). -/
def skipnaSum (l : List FVal) : FVal :=
  let l' := l.filter (fun v => decide (v ≠ FVal.nan))
  if l'.any (fun v => decide (v = FVal.posInf)) then
    if l'.any (fun v => decide (v = FVal.negInf)) then FVal.nan else FVal.posInf
  else if l'.any (fun v => decide (v = FVal.negInf)) then FVal.negInf
  else FVal.fin (qsum (l'.map finOrZero))

/-- Pandas `Series.mean()` with `skipna=True`: NaN entries are dropped, an
empty result is NaN, a surviving infinity dominates the mean. -/
def skipnaMean (l : List FVal) : FVal :=
  let l' := l.filter (fun v => decide (v ≠ FVal.nan))
  if l'.isEmpty then FVal.nan
  else if l'.any (fun v => decide (v = FVal.posInf)) then
    if l'.any (fun v => decide (v = FVal.negInf)) then FVal.nan else FVal.posInf
  else if l'.any (fun v => decide (v = FVal.negInf)) then FVal.negInf
  else FVal.fin (qdiv (qsum (l'.map finOrZero)) (l'.length : ℚ))

/-- `filtered_data['data'].sum()` (app.py line 192, before the display
scaling by 1e9). -/
def total_debt (rows : List GRow) : FVal := skipnaSum (rows.map (fun r => r.data))

/-- `filtered_data['YoY Growth %'].mean()` (app.py line 196). -/
def avg_growth (rows : List GRow) : FVal := skipnaMean (rows.map (fun r => r.growth))

/-- Strict order on non-NaN float values (NaN compares false everywhere,
as idxmax skips it). -/
def flt : FVal → FVal → Bool
  | FVal.nan, _ => false
  | _, FVal.nan => false
  | FVal.negInf, FVal.negInf => false
  | FVal.negInf, _ => true
  | _, FVal.negInf => false
  | FVal.posInf, _ => false
  | FVal.fin _, FVal.posInf => true
  | FVal.fin p, FVal.fin q => decide (p < q)

/-- `filtered_data['data'].idxmax()` followed by `.loc[..., 'year']`
(app.py line 207): the first row attaining the maximum debt amount, NaN
skipped; `none` models the `ValueError` pandas raises when no value
remains. -/
def argmaxData (rows : List GRow) : Option GRow :=
  rows.foldl
    (fun acc r =>
      if r.data = FVal.nan then acc
      else
        match acc with
        | none => some r
        | some b => if flt b.data r.data then some r else acc)
    none

/-- Outcome of rendering the Key Metrics block (app.py lines 183-211). -/
inductive ViewOutcome where
  | warnEmptySelection : ViewOutcome
  | metrics (total avgG : FVal) (peakYear : Int) : ViewOutcome
  | rawError : ViewOutcome
deriving DecidableEq

/-- The Key Metrics control flow (app.py lines 183-211): an empty country
selection only triggers `st.warning`; otherwise the metrics are computed on
the Filtered View, and `idxmax` on a view with no available debt value
raises an uncaught `ValueError` (`rawError`). -/
def mainMetrics (t : List GRow) (sel : List String) (lo hi : Int) : ViewOutcome :=
  if sel.isEmpty then ViewOutcome.warnEmptySelection
  else
    let fd := filtered_data t sel lo hi
    match argmaxData fd with
    | none => ViewOutcome.rawError
    | some r => ViewOutcome.metrics (total_debt fd) (avg_growth fd) r.year

/-- Order for descending sorts over a chosen float field: `fleB a b` reads
"a sorts no higher than b". -/
def fleB : FVal → FVal → Bool
  | FVal.nan, _ => true
  | _, FVal.nan => false
  | FVal.negInf, _ => true
  | _, FVal.posInf => true
  | FVal.posInf, _ => false
  | FVal.fin _, FVal.negInf => false
  | FVal.fin p, FVal.fin q => decide (p ≤ q)

/-- Stable descending insertion: `x` goes before the first element whose
value is at most `val x`, so equal values keep their original order. -/
def insertDescBy (val : GRow → FVal) (x : GRow) : List GRow → List GRow
  | [] => [x]
  | y :: ys => if fleB (val y) (val x) then x :: y :: ys else y :: insertDescBy val x ys

/-- Stable descending sort by a float field. -/
def sortDescBy (val : GRow → FVal) : List GRow → List GRow
  | [] => []
  | x :: xs => insertDescBy val x (sortDescBy val xs)

/-- `df.nlargest(n, col)` with the default `keep='first'`: rows whose value
is NaN are excluded, the rest are sorted descending by the column (ties in
original order), and the first `n` are kept. -/
def nlargestBy (n : Nat) (val : GRow → FVal) (rows : List GRow) : List GRow :=
  (sortDescBy val (rows.filter (fun r => decide (val r ≠ FVal.nan)))).take n

/-- `filtered_data.nlargest(10, 'data')` (app.py line 346). -/
def peak_periods (rows : List GRow) : List GRow :=
  nlargestBy 10 (fun r => r.data) rows

/-- `filtered_data.nlargest(10, 'YoY Growth %')` (app.py line 353). -/
def growth_periods (rows : List GRow) : List GRow :=
  nlargestBy 10 (fun r => r.growth) rows

/-- The distinct years of the Filtered View: the row index of
`pivot_table(index='year', ...)` (app.py lines 316-321). -/
def pivotYears (rows : List GRow) : List Int :=
  (rows.map (fun r => r.year)).dedup

/-- The distinct countries of the Filtered View: the column index of the
pivot. -/
def pivotCountries (rows : List GRow) : List String :=
  (rows.map (fun r => r.country)).dedup

/-- `.fillna(0)` on one value: NaN becomes 0, everything else passes. -/
def fillnaZero (v : FVal) : FVal :=
  if v = FVal.nan then FVal.fin 0 else v

/-- One cell of `pivot_table(index='year', columns='Country', values='data',
aggfunc='sum').fillna(0)`: the skipna sum of the debt amounts of the rows of
this (year, country) combination, with the `fillna(0)` applied afterwards —
so a combination with no observation yields 0, and so does a cell whose
aggregate came out NaN (infinities of both signs). -/
def pivotCell (rows : List GRow) (y : Int) (c : String) : FVal :=
  fillnaZero (skipnaSum ((rows.filter
    (fun r => decide (r.year = y) && decide (r.country = c))).map (fun r => r.data)))

/-- All cells of the zero-filled year-by-country pivot, row by row. -/
def pivotCells (rows : List GRow) : List FVal :=
  ((pivotYears rows).map (fun y =>
    (pivotCountries rows).map (fun c => pivotCell rows y c))).flatten

/-- The pandas sum of all cells of the zero-filled pivot (the cells carry no
NaN after the zero fill, but may carry infinities). -/
def pivotTotalF (rows : List GRow) : FVal := skipnaSum (pivotCells rows)

/-- The rational sum of the finite parts of all pivot cells; equal to the
float cell sum when no cell is infinite. -/
def pivotTotal (rows : List GRow) : ℚ :=
  qsum ((pivotYears rows).map (fun y =>
    qsum ((pivotCountries rows).map (fun c => finOrZero (pivotCell rows y c)))))

/-- `st.stop` after a failed load, an uncaught preprocessing exception, or
the Canonical Table (app.py lines 117-148). -/
inductive AppStart where
  | halted : AppStart
  | crashed : AppStart
  | canonical (t : List GRow) : AppStart
deriving DecidableEq

/-- Application start-up (app.py lines 117-148): when `load_all_data`
returns `None` the app reports and `st.stop`s before any filtering; when
preprocessing raises, the script dies; otherwise the Canonical Table is
available to the Filter Engine. -/
def appStart (src : String → Option (List SrcRow)) : AppStart :=
  match load_all_data src with
  | none => AppStart.halted
  | some t =>
    match preprocess_data t with
    | none => AppStart.crashed
    | some g => AppStart.canonical g

/-! ### Bridge lemmas: the kernel-evaluable rational operations agree with
the field operations of `ℚ`. -/

theorem qdiv_eq_div (a b : ℚ) : qdiv a b = a / b := by
  rw [qdiv, Rat.divInt_eq_div]
  rcases eq_or_ne b 0 with hb | hb
  · subst hb
    simp
  · have had : ((a.den : ℚ)) ≠ 0 := by exact_mod_cast a.den_nz
    have hbd : ((b.den : ℚ)) ≠ 0 := by exact_mod_cast b.den_nz
    have ha' : (a.num : ℚ) = a * a.den := (div_eq_iff had).mp (Rat.num_div_den a)
    have hb' : (b.num : ℚ) = b * b.den := (div_eq_iff hbd).mp (Rat.num_div_den b)
    push_cast
    rw [ha', hb',
      div_eq_div_iff (mul_ne_zero (mul_ne_zero hb hbd) had) hb]
    ring

theorem qsub1_eq (q : ℚ) : qsub1 q = q - 1 := by
  rw [qsub1, Rat.divInt_eq_div]
  have hd : ((q.den : ℚ)) ≠ 0 := by exact_mod_cast q.den_nz
  push_cast
  rw [sub_div, Rat.num_div_den, div_self hd]

theorem qmul100_eq (q : ℚ) : qmul100 q = q * 100 := by
  rw [qmul100, Rat.divInt_eq_div]
  have hd : ((q.den : ℚ)) ≠ 0 := by exact_mod_cast q.den_nz
  push_cast
  rw [mul_comm (q.num : ℚ) 100, mul_div_assoc, Rat.num_div_den, mul_comm]

theorem qadd_eq (a b : ℚ) : qadd a b = a + b := by
  rw [qadd, Rat.divInt_eq_div]
  have had : ((a.den : ℚ)) ≠ 0 := by exact_mod_cast a.den_nz
  have hbd : ((b.den : ℚ)) ≠ 0 := by exact_mod_cast b.den_nz
  push_cast
  conv_rhs => rw [← Rat.num_div_den a, ← Rat.num_div_den b]
  rw [div_add_div _ _ had hbd]
  ring_nf

theorem qsum_eq (l : List ℚ) : qsum l = l.sum := by
  induction l with
  | nil => rfl
  | cons x xs ih =>
    rw [qsum, List.foldr_cons, List.sum_cons, qadd_eq]
    rw [qsum] at ih
    rw [ih]

/-! ### Evaluation lemmas for the percent-change arithmetic. -/

theorem fdiv_nan_right (x : FVal) : fdiv x FVal.nan = FVal.nan := by
  cases x <;> rfl

/-- The percent-change formula on two defined values with nonzero previous
value is the textbook growth percent. -/
theorem pct_formula (p q : ℚ) (hp : p ≠ 0) :
    fmul100 (fsub1 (fdiv (FVal.fin q) (FVal.fin p))) = FVal.fin ((q - p) / p * 100) := by
  have hstep : fdiv (FVal.fin q) (FVal.fin p) = FVal.fin (q / p) := by
    rw [fdiv, if_neg hp, qdiv_eq_div]
  rw [hstep, fsub1, fmul100, qsub1_eq, qmul100_eq]
  congr 1
  field_simp

/-! ### Structural lemmas about the grouped percent-change scan. -/

/-- Looking up a country in an extended scan state. -/
theorem lookupD_cons (c c' : String) (v : FVal) (st : List (String × FVal)) :
    lookupD ((c', v) :: st) c = if c' = c then v else lookupD st c := by
  by_cases h : c' = c <;> simp [lookupD, List.find?, h]

theorem mkGrow_country (prev : FVal) (r : Row) : (mkGrow prev r).country = r.country := rfl

theorem mkGrow_data (prev : FVal) (r : Row) : (mkGrow prev r).data = r.data := rfl

theorem fillVal_of_fin (prev : FVal) (r : Row) (p : ℚ) (h : r.data = FVal.fin p) :
    fillVal prev r = FVal.fin p := by
  rw [fillVal, h]
  simp

/-- Restricting the grouped scan to one country gives the single-country
scan seeded with that country's entry of the state. -/
theorem growthScan_filter (l : List Row) (st : List (String × FVal)) (c : String) :
    (growthScan l st).filter (fun g => decide (g.country = c)) =
      scan1 (lookupD st c) (l.filter (fun r => decide (r.country = c))) := by
  induction l generalizing st with
  | nil => rfl
  | cons r rs ih =>
    by_cases hc : r.country = c
    · rw [growthScan, List.filter_cons, List.filter_cons]
      rw [mkGrow_country]
      simp only [hc, decide_True]
      rw [if_pos trivial, if_pos trivial, scan1, ih, lookupD_cons, if_pos rfl]
    · rw [growthScan, List.filter_cons, List.filter_cons]
      rw [mkGrow_country]
      simp only [hc, decide_False]
      rw [if_neg (by simp), if_neg (by simp), ih, lookupD_cons, if_neg hc]

/-- The first row of a single-country scan seeded with NaN always carries a
NaN growth value. -/
theorem scan1_head_nan (l : List Row) (a : GRow) :
    (scan1 FVal.nan l).head? = some a → a.growth = FVal.nan := by
  cases l with
  | nil => intro h; cases h
  | cons r rs =>
    intro h
    have ha : mkGrow FVal.nan r = a := by
      rw [scan1] at h
      exact Option.some.inj h
    rw [← ha, mkGrow, fdiv_nan_right]
    rfl

/-- Growth of a row whose predecessor (within the same single-country scan)
has a defined debt amount: computed against exactly that predecessor's
value. -/
theorem scan1_adjacent (l : List Row) (prev : FVal) (i : Nat) (a b : GRow)
    (p q : ℚ) (ha : (scan1 prev l)[i]? = some a)
    (hb : (scan1 prev l)[i + 1]? = some b)
    (hap : a.data = FVal.fin p) (hbq : b.data = FVal.fin q) :
    b.growth = fmul100 (fsub1 (fdiv (FVal.fin q) (FVal.fin p))) := by
  induction l generalizing prev i with
  | nil => cases ha
  | cons r rs ih =>
    rw [scan1] at ha hb
    cases i with
    | zero =>
      rw [List.getElem?_cons_zero] at ha
      have haG : mkGrow prev r = a := Option.some.inj ha
      have hrp : r.data = FVal.fin p := by
        rw [← haG, mkGrow_data] at hap
        exact hap
      rw [List.getElem?_cons_succ] at hb
      have hfill : fillVal prev r = FVal.fin p := fillVal_of_fin prev r p hrp
      cases rs with
      | nil => cases hb
      | cons r2 rs2 =>
        rw [scan1, List.getElem?_cons_zero] at hb
        have hbG : mkGrow (fillVal prev r) r2 = b := Option.some.inj hb
        have hrq : r2.data = FVal.fin q := by
          rw [← hbG, mkGrow_data] at hbq
          exact hbq
        rw [← hbG, mkGrow, hfill, fillVal_of_fin _ _ q hrq]
    | succ n =>
      rw [List.getElem?_cons_succ] at ha hb
      exact ih (fillVal prev r) n ha hb

/-! ### Provenance: every row of the Canonical Table comes from a complete
raw row, with parsed year and coerced debt amount. -/

theorem mem_insertRow (x y : Row) (l : List Row) :
    x ∈ insertRow y l ↔ x = y ∨ x ∈ l := by
  induction l with
  | nil => simp [insertRow]
  | cons z zs ih =>
    rw [insertRow]
    by_cases h : keyLE y z
    · simp [h]
    · rw [if_neg h]
      simp only [List.mem_cons, ih]
      tauto

theorem mem_sortRows (x : Row) (l : List Row) : x ∈ sortRows l ↔ x ∈ l := by
  induction l with
  | nil => exact Iff.rfl
  | cons z zs ih =>
    rw [sortRows, mem_insertRow]
    simp [ih]

theorem growthScan_mem (l : List Row) (st : List (String × FVal)) (g : GRow)
    (hg : g ∈ growthScan l st) :
    ∃ r ∈ l, g.country = r.country ∧ g.code = r.code ∧ g.year = r.year ∧
      g.data = r.data := by
  induction l generalizing st with
  | nil => cases hg
  | cons r rs ih =>
    rw [growthScan] at hg
    rcases List.mem_cons.mp hg with h | h
    · exact ⟨r, List.mem_cons_self r rs, by rw [h]; exact ⟨rfl, rfl, rfl, rfl⟩⟩
    · obtain ⟨r', hr', hf⟩ := ih _ h
      exact ⟨r', List.mem_cons_of_mem _ hr', hf⟩

theorem parseYears_mem (l : List RawRow) (out : List Row)
    (h : parseYears l = some out) (r : Row) (hr : r ∈ out) :
    ∃ raw ∈ l, parseYear raw.year = some r.year ∧ r.country = raw.country ∧
      r.code = raw.code ∧ r.data = toNumericCoerce raw.data := by
  induction l generalizing out with
  | nil =>
    rw [parseYears] at h
    cases h
    cases hr
  | cons a as ih =>
    rw [parseYears] at h
    cases hy : parseYear a.year with
    | none => rw [hy] at h; cases h
    | some y =>
      rw [hy] at h
      cases hrest : parseYears as with
      | none => rw [hrest] at h; cases h
      | some rest =>
        rw [hrest] at h
        cases h
        rcases List.mem_cons.mp hr with h' | h'
        · subst h'
          exact ⟨a, List.mem_cons_self a as, by rw [hy], rfl, rfl, rfl⟩
        · obtain ⟨raw, hraw, hf⟩ := ih rest hrest h'
          exact ⟨raw, List.mem_cons_of_mem _ hraw, hf⟩

theorem parseYears_isSome (l : List RawRow) :
    (parseYears l).isSome ↔ ∀ r ∈ l, (parseYear r.year).isSome := by
  induction l with
  | nil => simp [parseYears]
  | cons a as ih =>
    rw [parseYears]
    cases hy : parseYear a.year with
    | none =>
      simp only [Option.isSome_none, Bool.false_eq_true, false_iff]
      intro hall
      have := hall a (List.mem_cons_self a as)
      rw [hy] at this
      cases this
    | some y =>
      cases hrest : parseYears as with
      | none =>
        rw [hrest] at ih
        simp only [Option.isSome_none, Bool.false_eq_true, false_iff] at ih ⊢
        intro hall
        exact ih (fun r hr => hall r (List.mem_cons_of_mem _ hr))
      | some rest =>
        rw [hrest] at ih
        simp only [Option.isSome_some, true_iff] at ih
        simp only [Option.isSome_some, true_iff]
        intro r hr
        rcases List.mem_cons.mp hr with h' | h'
        · rw [h', hy]; rfl
        · exact ih r h'

theorem mem_dropna (r : RawRow) (l : List RawRow) :
    r ∈ dropna l ↔ r ∈ l ∧ rowComplete r := by
  rw [dropna]
  exact List.mem_filter

/-- Every row of the Canonical Table originates in a raw input row that
survived `dropna` (no missing cell), with its year parsed and its debt
amount the result of numeric coercion. -/
theorem preprocess_mem (rows : List RawRow) (out : List GRow)
    (h : preprocess_data rows = some out) (g : GRow) (hg : g ∈ out) :
    ∃ raw ∈ rows, rowComplete raw ∧ g.country = raw.country ∧ g.code = raw.code ∧
      parseYear raw.year = some g.year ∧ g.data = toNumericCoerce raw.data := by
  rw [preprocess_data] at h
  obtain ⟨rs, hrs, hout⟩ := Option.map_eq_some'.mp h
  subst hout
  obtain ⟨r, hr, hc, hcode, hyear, hdata⟩ := growthScan_mem _ _ g hg
  have hr' : r ∈ rs := (mem_sortRows r rs).mp hr
  obtain ⟨raw, hraw, hpy, hrc, hrcode, hrdata⟩ := parseYears_mem _ _ hrs r hr'
  obtain ⟨hin, hcomp⟩ := (mem_dropna raw rows).mp hraw
  refine ⟨raw, hin, hcomp, ?_, ?_, ?_, ?_⟩
  · rw [hc, hrc]
  · rw [hcode, hrcode]
  · rw [← hyear] at hpy
    exact hpy
  · rw [hdata, hrdata]


/-! ### The Filter Engine as a projection. -/

theorem mem_filtered_data (t : List GRow) (sel : List String) (lo hi : Int) (r : GRow) :
    r ∈ filtered_data t sel lo hi ↔
      r ∈ t ∧ r.country ∈ sel ∧ lo ≤ r.year ∧ r.year ≤ hi := by
  rw [filtered_data, List.mem_filter]
  simp [and_assoc]

theorem filtered_data_sublist (t : List GRow) (sel : List String) (lo hi : Int) :
    (filtered_data t sel lo hi).Sublist t :=
  List.filter_sublist t

theorem filtered_data_eq_self (t : List GRow) (sel : List String) (lo hi : Int)
    (h : ∀ r ∈ t, r.country ∈ sel ∧ lo ≤ r.year ∧ r.year ≤ hi) :
    filtered_data t sel lo hi = t := by
  rw [filtered_data, List.filter_eq_self]
  intro a ha
  obtain ⟨h1, h2, h3⟩ := h a ha
  simp [h1, h2, h3]

/-! ### The loader: skip-and-continue, tagging, and the all-failed halt. -/

theorem load_all_data_eq_none (src : String → Option (List SrcRow)) :
    load_all_data src = none ↔ ∀ p ∈ COUNTRY_MAPPING, src p.2 = none := by
  rw [load_all_data]
  by_cases h : (COUNTRY_MAPPING.filterMap
      (fun p => (src p.2).map (fun rs => rs.map (tagRow p)))).isEmpty
  · rw [if_pos h]
    simp only [true_iff]
    rw [List.isEmpty_iff] at h
    intro p hp
    have := List.filterMap_eq_nil_iff.mp h p hp
    exact Option.map_eq_none'.mp this
  · rw [if_neg h]
    simp only [reduceCtorEq, false_iff]
    intro hall
    apply h
    rw [List.isEmpty_iff, List.filterMap_eq_nil_iff]
    intro p hp
    rw [hall p hp]
    rfl

theorem load_all_data_mem (src : String → Option (List SrcRow)) (t : List RawRow)
    (h : load_all_data src = some t) (r : RawRow) (hr : r ∈ t) :
    ∃ p ∈ COUNTRY_MAPPING, ∃ rs, src p.2 = some rs ∧ ∃ sr ∈ rs, r = tagRow p sr := by
  rw [load_all_data] at h
  split at h
  · cases h
  · have ht : t = (COUNTRY_MAPPING.filterMap
        (fun p => (src p.2).map (fun rs => rs.map (tagRow p)))).flatten :=
      (Option.some.inj h).symm
    subst ht
    obtain ⟨part, hpart, hrpart⟩ := List.mem_flatten.mp hr
    obtain ⟨p, hp, hmap⟩ := List.mem_filterMap.mp hpart
    obtain ⟨rs, hrs, hpart'⟩ := Option.map_eq_some'.mp hmap
    subst hpart'
    obtain ⟨sr, hsr, hr'⟩ := List.mem_map.mp hrpart
    exact ⟨p, hp, rs, hrs, sr, hsr, hr'.symm⟩

theorem appStart_halted (src : String → Option (List SrcRow))
    (h : ∀ p ∈ COUNTRY_MAPPING, src p.2 = none) : appStart src = AppStart.halted := by
  rw [appStart, (load_all_data_eq_none src).mpr h]

/-! ### Key Metrics control flow. -/

theorem mainMetrics_warn (t : List GRow) (lo hi : Int) :
    mainMetrics t [] lo hi = ViewOutcome.warnEmptySelection := rfl

theorem mainMetrics_raw_error (t : List GRow) (sel : List String) (lo hi : Int)
    (hsel : sel ≠ []) (hfd : filtered_data t sel lo hi = []) :
    mainMetrics t sel lo hi = ViewOutcome.rawError := by
  rw [mainMetrics, if_neg (by simp [hsel]), hfd]
  rfl

/-! ### Skipna aggregation behaviour on NaN and infinity. -/

theorem skipnaMean_nan_cons (l : List FVal) :
    skipnaMean (FVal.nan :: l) = skipnaMean l := by
  rw [skipnaMean, skipnaMean, List.filter_cons]
  norm_num

theorem skipnaMean_posInf (l : List FVal) (hp : FVal.posInf ∈ l)
    (hn : FVal.negInf ∉ l) : skipnaMean l = FVal.posInf := by
  rw [skipnaMean]
  have h1 : FVal.posInf ∈ l.filter (fun v => decide (v ≠ FVal.nan)) :=
    List.mem_filter.mpr ⟨hp, by decide⟩
  have hne : ¬ (l.filter (fun v => decide (v ≠ FVal.nan))).isEmpty = true := by
    rw [List.isEmpty_iff]
    exact fun he => (List.ne_nil_of_mem h1) he
  have hni : ¬ (l.filter (fun v => decide (v ≠ FVal.nan))).any
      (fun v => decide (v = FVal.negInf)) = true := by
    intro hany
    obtain ⟨v, hv, hveq⟩ := List.any_eq_true.mp hany
    exact hn ((of_decide_eq_true hveq) ▸ (List.mem_filter.mp hv).1)
  rw [if_neg hne]
  rw [if_pos (List.any_eq_true.mpr ⟨FVal.posInf, h1, by decide⟩)]
  rw [if_neg hni]


/-! ### The pivot total sum equals the total debt sum: fiber-wise summation. -/

theorem sum_map_add {κ : Type} (f g : κ → ℚ) (keys : List κ) :
    (keys.map (fun a => f a + g a)).sum = (keys.map f).sum + (keys.map g).sum := by
  induction keys with
  | nil => simp
  | cons k ks ih =>
    simp only [List.map_cons, List.sum_cons, ih]
    ring

theorem sum_map_ite_eq {κ : Type} [DecidableEq κ] (b : κ) (q : ℚ) (keys : List κ)
    (hnd : keys.Nodup) (hb : b ∈ keys) :
    (keys.map (fun a => if b = a then q else 0)).sum = q := by
  induction keys with
  | nil => cases hb
  | cons k ks ih =>
    rw [List.map_cons, List.sum_cons]
    rcases List.mem_cons.mp hb with h | h
    · subst h
      rw [if_pos rfl]
      have hz : (ks.map (fun a => if b = a then q else 0)).sum = 0 := by
        apply List.sum_eq_zero
        intro x hx
        obtain ⟨a, ha, hax⟩ := List.mem_map.mp hx
        rw [← hax, if_neg]
        intro hba
        exact (List.nodup_cons.mp hnd).1 (hba ▸ ha)
      rw [hz, add_zero]
    · have hbk : ¬ b = k := fun he => (List.nodup_cons.mp hnd).1 (he ▸ h)
      rw [if_neg hbk, ih (List.nodup_cons.mp hnd).2 h, zero_add]

/-- Summing a value over the fibers of a key function, where each fiber is a
`filter` by one key of a duplicate-free key list covering the data, gives
the total sum. -/
theorem sum_fiber {α κ : Type} [DecidableEq κ] (k : α → κ) (v : α → ℚ)
    (keys : List κ) (hnd : keys.Nodup) (l : List α) (hall : ∀ x ∈ l, k x ∈ keys) :
    (keys.map (fun a => ((l.filter (fun x => decide (k x = a))).map v).sum)).sum
      = (l.map v).sum := by
  induction l with
  | nil => simp
  | cons x xs ih =>
    have hx : k x ∈ keys := hall x (List.mem_cons_self x xs)
    have hxs : ∀ y ∈ xs, k y ∈ keys := fun y hy => hall y (List.mem_cons_of_mem _ hy)
    have hsplit : ∀ a : κ,
        ((List.filter (fun y => decide (k y = a)) (x :: xs)).map v).sum
          = (if k x = a then v x else 0)
            + ((xs.filter (fun y => decide (k y = a))).map v).sum := by
      intro a
      rw [List.filter_cons]
      by_cases h : k x = a
      · simp [h]
      · simp [h]
    calc (keys.map (fun a =>
            ((List.filter (fun y => decide (k y = a)) (x :: xs)).map v).sum)).sum
        = (keys.map (fun a => (if k x = a then v x else 0)
            + ((xs.filter (fun y => decide (k y = a))).map v).sum)).sum := by
          congr 1
          exact List.map_congr_left (fun a _ => hsplit a)
      _ = (keys.map (fun a => if k x = a then v x else 0)).sum
            + (keys.map (fun a =>
                ((xs.filter (fun y => decide (k y = a))).map v).sum)).sum :=
          sum_map_add _ _ keys
      _ = v x + (xs.map v).sum := by
          rw [sum_map_ite_eq (k x) (v x) keys hnd hx, ih hxs]
      _ = ((x :: xs).map v).sum := by
          rw [List.map_cons, List.sum_cons]

theorem sum_finOrZero_filter (l : List FVal) :
    ((l.filter (fun v => decide (v ≠ FVal.nan))).map finOrZero).sum
      = (l.map finOrZero).sum := by
  induction l with
  | nil => rfl
  | cons x xs ih =>
    rw [List.filter_cons]
    by_cases h : x = FVal.nan
    · subst h
      simpa [finOrZero] using ih
    · rw [if_pos (decide_eq_true h)]
      rw [List.map_cons, List.sum_cons, List.map_cons, List.sum_cons, ih]

/-- With no infinity in the list, the pandas skipna sum is the plain sum of
finite parts (NaN contributing zero). -/
theorem skipnaSum_no_inf (l : List FVal) (hp : FVal.posInf ∉ l)
    (hn : FVal.negInf ∉ l) :
    skipnaSum l = FVal.fin ((l.map finOrZero).sum) := by
  rw [skipnaSum]
  have hap : ¬ (l.filter (fun v => decide (v ≠ FVal.nan))).any
      (fun v => decide (v = FVal.posInf)) = true := by
    intro hany
    obtain ⟨v, hv, hveq⟩ := List.any_eq_true.mp hany
    exact hp ((of_decide_eq_true hveq) ▸ (List.mem_filter.mp hv).1)
  have han : ¬ (l.filter (fun v => decide (v ≠ FVal.nan))).any
      (fun v => decide (v = FVal.negInf)) = true := by
    intro hany
    obtain ⟨v, hv, hveq⟩ := List.any_eq_true.mp hany
    exact hn ((of_decide_eq_true hveq) ▸ (List.mem_filter.mp hv).1)
  rw [if_neg hap, if_neg han, qsum_eq, sum_finOrZero_filter]

/-- The zero-filled year-by-country pivot, summed over all of its cells,
equals the skipna sum of the debt column, provided the debt column holds no
infinity (which is an invariant of the pipeline). -/
theorem pivotTotal_eq_total (rows : List GRow)
    (hfin : ∀ r ∈ rows, r.data ≠ FVal.posInf ∧ r.data ≠ FVal.negInf) :
    FVal.fin (pivotTotal rows) = total_debt rows := by
  have hcell : ∀ (l : List GRow), (∀ r ∈ l, r.data ≠ FVal.posInf ∧ r.data ≠ FVal.negInf) →
      skipnaSum (l.map (fun r => r.data)) = FVal.fin ((l.map (fun r => finOrZero r.data)).sum) := by
    intro l hl
    rw [skipnaSum_no_inf]
    · rw [List.map_map]
      rfl
    · intro hmem
      obtain ⟨r, hr, hrd⟩ := List.mem_map.mp hmem
      exact (hl r hr).1 hrd
    · intro hmem
      obtain ⟨r, hr, hrd⟩ := List.mem_map.mp hmem
      exact (hl r hr).2 hrd
  rw [total_debt, hcell rows hfin]
  congr 1
  rw [pivotTotal, qsum_eq]
  have hinner : ∀ y : Int,
      qsum ((pivotCountries rows).map (fun c => finOrZero (pivotCell rows y c)))
        = ((rows.filter (fun r => decide (r.year = y))).map
            (fun r => finOrZero r.data)).sum := by
    intro y
    rw [qsum_eq]
    have hcells : ∀ c ∈ pivotCountries rows, finOrZero (pivotCell rows y c)
        = (((rows.filter (fun r => decide (r.year = y))).filter
            (fun r => decide (r.country = c))).map (fun r => finOrZero r.data)).sum := by
      intro c _
      rw [pivotCell]
      have hff : rows.filter (fun r => decide (r.year = y) && decide (r.country = c))
          = (rows.filter (fun r => decide (r.year = y))).filter
              (fun r => decide (r.country = c)) := by
        rw [List.filter_filter]
        apply List.filter_congr
        intro a _
        rw [Bool.and_comm]
      rw [hff]
      set fib := (rows.filter (fun r => decide (r.year = y))).filter
        (fun r => decide (r.country = c)) with hfib
      have hsub : ∀ r ∈ fib, r ∈ rows := by
        intro r hr
        exact (List.filter_sublist rows).subset
          ((List.filter_sublist (rows.filter (fun r => decide (r.year = y)))).subset hr)
      rw [hcell fib (fun r hr => hfin r (hsub r hr))]
      rfl
    rw [List.map_congr_left hcells]
    exact sum_fiber (fun r => r.country) (fun r => finOrZero r.data)
      (pivotCountries rows) (List.nodup_dedup _)
      (rows.filter (fun r => decide (r.year = y)))
      (fun x hx => by
        rw [pivotCountries]
        exact List.mem_dedup.mpr (List.mem_map_of_mem _
          ((List.filter_sublist rows).subset hx)))
  rw [List.map_congr_left (fun y _ => hinner y)]
  exact sum_fiber (fun r => r.year) (fun r => finOrZero r.data)
    (pivotYears rows) (List.nodup_dedup _) rows
    (fun x hx => by
      rw [pivotYears]
      exact List.mem_dedup.mpr (List.mem_map_of_mem _ hx))


/-! ### nlargest: sortedness, stability, length, and domination. -/

theorem fleB_refl (a : FVal) : fleB a a = true := by
  cases a with
  | nan => rfl
  | posInf => rfl
  | negInf => rfl
  | fin q => simp [fleB]

theorem fleB_total (a b : FVal) (h : fleB a b = false) : fleB b a = true := by
  cases a <;> cases b <;> simp_all [fleB] <;> linarith

theorem fleB_trans (a b c : FVal) (hab : fleB a b = true) (hbc : fleB b c = true) :
    fleB a c = true := by
  cases a <;> cases b <;> cases c <;> simp_all [fleB] <;> linarith

theorem mem_insertDescBy (val : GRow → FVal) (x y : GRow) (l : List GRow) :
    y ∈ insertDescBy val x l ↔ y = x ∨ y ∈ l := by
  induction l with
  | nil => simp [insertDescBy]
  | cons z zs ih =>
    rw [insertDescBy]
    by_cases h : fleB (val z) (val x)
    · simp [h]
    · rw [if_neg h]
      simp only [List.mem_cons, ih]
      tauto

theorem insertDescBy_perm (val : GRow → FVal) (x : GRow) (l : List GRow) :
    (insertDescBy val x l).Perm (x :: l) := by
  induction l with
  | nil => exact List.Perm.refl _
  | cons z zs ih =>
    rw [insertDescBy]
    by_cases h : fleB (val z) (val x)
    · rw [if_pos h]
    · rw [if_neg h]
      exact (ih.cons z).trans (List.Perm.swap x z zs)

theorem sortDescBy_perm (val : GRow → FVal) (l : List GRow) :
    (sortDescBy val l).Perm l := by
  induction l with
  | nil => exact List.Perm.refl _
  | cons x xs ih =>
    rw [sortDescBy]
    exact (insertDescBy_perm val x (sortDescBy val xs)).trans (ih.cons x)

theorem pairwise_insertDescBy (val : GRow → FVal) (x : GRow) (l : List GRow)
    (h : List.Pairwise (fun u v => fleB (val v) (val u) = true) l) :
    List.Pairwise (fun u v => fleB (val v) (val u) = true) (insertDescBy val x l) := by
  induction l with
  | nil => simp [insertDescBy]
  | cons z zs ih =>
    rw [insertDescBy]
    obtain ⟨hz, hzs⟩ := List.pairwise_cons.mp h
    by_cases hc : fleB (val z) (val x)
    · rw [if_pos hc]
      refine List.pairwise_cons.mpr ⟨?_, h⟩
      intro b hb
      rcases List.mem_cons.mp hb with hb | hb
      · subst hb; exact hc
      · exact fleB_trans _ _ _ (hz b hb) hc
    · rw [if_neg hc]
      have hf : fleB (val z) (val x) = false := by
        revert hc
        cases fleB (val z) (val x) <;> simp
      refine List.pairwise_cons.mpr ⟨?_, ih hzs⟩
      intro b hb
      rcases (mem_insertDescBy val x b zs).mp hb with hb | hb
      · subst hb
        exact fleB_total _ _ hf
      · exact hz b hb

theorem sortDescBy_pairwise (val : GRow → FVal) (l : List GRow) :
    List.Pairwise (fun u v => fleB (val v) (val u) = true) (sortDescBy val l) := by
  induction l with
  | nil => exact List.Pairwise.nil
  | cons x xs ih =>
    rw [sortDescBy]
    exact pairwise_insertDescBy val x _ ih

theorem length_insertDescBy (val : GRow → FVal) (x : GRow) (l : List GRow) :
    (insertDescBy val x l).length = l.length + 1 := by
  induction l with
  | nil => rfl
  | cons z zs ih =>
    rw [insertDescBy]
    by_cases h : fleB (val z) (val x)
    · rw [if_pos h]
      rfl
    · rw [if_neg h, List.length_cons, ih, List.length_cons]

theorem length_sortDescBy (val : GRow → FVal) (l : List GRow) :
    (sortDescBy val l).length = l.length := by
  induction l with
  | nil => rfl
  | cons x xs ih =>
    rw [sortDescBy, length_insertDescBy, ih, List.length_cons]

theorem filter_insertDescBy (val : GRow → FVal) (x : GRow) (l : List GRow) (w : FVal) :
    (insertDescBy val x l).filter (fun r => decide (val r = w))
      = if val x = w then x :: l.filter (fun r => decide (val r = w))
        else l.filter (fun r => decide (val r = w)) := by
  induction l with
  | nil =>
    by_cases h : val x = w
    · simp [insertDescBy, List.filter_cons, h]
    · simp [insertDescBy, List.filter_cons, h]
  | cons z zs ih =>
    by_cases hc : fleB (val z) (val x)
    · rw [insertDescBy, if_pos hc]
      by_cases h : val x = w
      · simp [List.filter_cons, h]
      · simp [List.filter_cons, h]
    · rw [insertDescBy, if_neg hc]
      by_cases hz : val z = w
      · have hx : ¬ val x = w := by
          intro hxw
          apply hc
          rw [hz, hxw]
          exact fleB_refl w
        simp [List.filter_cons, hz, hx, ih]
      · simp [List.filter_cons, hz, ih]


theorem filter_sortDescBy (val : GRow → FVal) (l : List GRow) (w : FVal) :
    (sortDescBy val l).filter (fun r => decide (val r = w))
      = l.filter (fun r => decide (val r = w)) := by
  induction l with
  | nil => rfl
  | cons x xs ih =>
    rw [sortDescBy, filter_insertDescBy, List.filter_cons]
    by_cases h : val x = w
    · rw [if_pos h, if_pos (by simp [h]), ih]
    · rw [if_neg h, if_neg (by simp [h]), ih]

theorem filter_take_prefix (l : List GRow) (p : GRow → Bool) (n : Nat) :
    (l.take n).filter p <+: l.filter p := by
  conv_rhs => rw [← List.take_append_drop n l]
  rw [List.filter_append]
  exact List.prefix_append _ _

theorem take_pairwise_drop {R : GRow → GRow → Prop} (l : List GRow) (n : Nat)
    (h : List.Pairwise R l) :
    ∀ x ∈ l.take n, ∀ y ∈ l.drop n, R x y := by
  rw [← List.take_append_drop n l] at h
  exact fun x hx y hy => (List.pairwise_append.mp h).2.2 x hx y hy

/-- The top-N selection is sorted descending in its value field. -/
theorem nlargestBy_sorted (n : Nat) (val : GRow → FVal) (rows : List GRow) :
    List.Pairwise (fun u v => fleB (val v) (val u) = true) (nlargestBy n val rows) :=
  List.Pairwise.sublist (List.take_sublist n _) (sortDescBy_pairwise val _)

/-- The length of the top-N selection: `n` capped by the number of rows with
a defined (non-NaN) value. -/
theorem nlargestBy_length (n : Nat) (val : GRow → FVal) (rows : List GRow) :
    (nlargestBy n val rows).length
      = min n (rows.filter (fun r => decide (val r ≠ FVal.nan))).length := by
  rw [nlargestBy, List.length_take, length_sortDescBy]

/-- Stability: for each value, the rows of the top-N selection carrying that
value are an initial segment, in original order, of the rows of the input
carrying that value. -/
theorem nlargestBy_stable (n : Nat) (val : GRow → FVal) (rows : List GRow) (w : FVal) :
    (nlargestBy n val rows).filter (fun r => decide (val r = w))
      <+: (rows.filter (fun r => decide (val r ≠ FVal.nan))).filter
            (fun r => decide (val r = w)) := by
  rw [nlargestBy]
  have h := filter_take_prefix (sortDescBy val
    (rows.filter (fun r => decide (val r ≠ FVal.nan)))) (fun r => decide (val r = w)) n
  rwa [filter_sortDescBy] at h

/-- Domination: any defined row left out of the top-N selection has a value
at most every selected row's value. -/
theorem nlargestBy_dominates (n : Nat) (val : GRow → FVal) (rows : List GRow)
    (x : GRow) (hx : x ∈ rows.filter (fun r => decide (val r ≠ FVal.nan)))
    (hxout : x ∉ nlargestBy n val rows) (y : GRow) (hy : y ∈ nlargestBy n val rows) :
    fleB (val x) (val y) = true := by
  set srt := sortDescBy val (rows.filter (fun r => decide (val r ≠ FVal.nan))) with hsrt
  have hxs : x ∈ srt := (sortDescBy_perm val _).mem_iff.mpr hx
  have hxdrop : x ∈ srt.drop n := by
    rcases List.mem_append.mp ((List.take_append_drop n srt) ▸ hxs) with h | h
    · exact absurd h hxout
    · exact h
  exact take_pairwise_drop srt n (sortDescBy_pairwise val _) y hy x hxdrop

/-! ### Partition-level growth facts on the Canonical Table. -/

theorem preprocess_partition (rows : List RawRow) (out : List GRow)
    (h : preprocess_data rows = some out) (c : String) :
    ∃ rs : List Row, out.filter (fun r => decide (r.country = c))
      = scan1 FVal.nan (rs.filter (fun r => decide (r.country = c))) := by
  rw [preprocess_data] at h
  obtain ⟨rs, hrs, hout⟩ := Option.map_eq_some'.mp h
  refine ⟨sortRows rs, ?_⟩
  rw [← hout, growthScan_filter]
  rfl

/-- Division of a positive value by zero yields positive infinity in the
percent-change arithmetic. -/
theorem pct_zero_prev_pos (q : ℚ) (hq : 0 < q) :
    fmul100 (fsub1 (fdiv (FVal.fin q) (FVal.fin 0))) = FVal.posInf := by
  have h1 : fdiv (FVal.fin q) (FVal.fin 0) = FVal.posInf := by
    simp [fdiv, hq, hq.ne.symm]
  rw [h1]
  rfl


/-! ### Concrete tables used by counterexamples and witnesses. -/

/-- A raw table whose only row has a year entry that parses as no date. -/
def exBadYear : List RawRow :=
  [{ country := "Bhutan", code := "BTN", year := Cell.str "n.a.", data := Cell.num 5 }]

/-- A raw table whose only row has a non-numeric debt entry and a valid year. -/
def exBadData : List RawRow :=
  [{ country := "Bhutan", code := "BTN", year := Cell.num 2000, data := Cell.str "abc" }]

/-- The spec's concrete scenario: Bangladesh 2018-2020 with amounts
100, 150, 120. -/
def exBGD : List RawRow :=
  [{ country := "Bangladesh", code := "BGD", year := Cell.num 2018, data := Cell.num 100 },
   { country := "Bangladesh", code := "BGD", year := Cell.num 2019, data := Cell.num 150 },
   { country := "Bangladesh", code := "BGD", year := Cell.num 2020, data := Cell.num 120 }]

def gBGD1 : GRow :=
  { country := "Bangladesh", code := "BGD", year := 2018, data := FVal.fin 100,
    growth := FVal.nan }

def gBGD2 : GRow :=
  { country := "Bangladesh", code := "BGD", year := 2019, data := FVal.fin 150,
    growth := FVal.fin 50 }

def gBGD3 : GRow :=
  { country := "Bangladesh", code := "BGD", year := 2020, data := FVal.fin 120,
    growth := FVal.fin (-20) }

/-- The Canonical Table computed from `exBGD`. -/
def exBGDout : List GRow := [gBGD1, gBGD2, gBGD3]

/-- Nepal with a zero debt amount followed by a positive one. -/
def exZero : List RawRow :=
  [{ country := "Nepal", code := "NPL", year := Cell.num 2000, data := Cell.num 0 },
   { country := "Nepal", code := "NPL", year := Cell.num 2001, data := Cell.num 5 }]

/-- A two-country canonical table: Bangladesh observed only in 2000, Bhutan
only in 2001 (so a selection of Bangladesh with range [2001, 2001] is a
non-empty selection with an empty Filtered View). -/
def exView : List GRow :=
  [{ country := "Bangladesh", code := "BGD", year := 2000, data := FVal.fin 5,
     growth := FVal.nan },
   { country := "Bhutan", code := "BTN", year := 2001, data := FVal.fin 3,
     growth := FVal.nan }]

/-- One row whose growth value is NaN (every country's first row is). -/
def exOne : List GRow :=
  [{ country := "Nepal", code := "NPL", year := 2000, data := FVal.fin 5,
     growth := FVal.nan }]

/-- A source oracle where only the Bangladesh file reads successfully. -/
def exSrc : String → Option (List SrcRow) := fun c =>
  if c = "BGD" then some [{ year := Cell.num 2000, data := Cell.num 5 }] else none

/-- A source oracle where every read fails. -/
def exSrcFail : String → Option (List SrcRow) := fun _ => none


/-! ### Claims. -/

/-- C1, counterexample: a year entry that fails to parse as a date is not
treated as missing — preprocessing fails (raises) on this table even though
the entry survives `dropna`. -/
theorem C1_counterexample :
    parseYear (Cell.str "n.a.") = none ∧ dropna exBadYear = exBadYear ∧
    preprocess_data exBadYear = none := by
  refine ⟨by decide, by decide, by decide⟩

/-- C1 (amended): a debt-amount entry that cannot be parsed as a number is
coerced to missing and preprocessing continues — it succeeds whenever every
year entry surviving the row-drop parses — but a year entry that cannot be
parsed as a date makes the whole preprocessing step fail rather than being
treated as missing. -/
theorem C1_thm :
    (∀ rows : List RawRow, (∀ r ∈ dropna rows, (parseYear r.year).isSome) →
      (preprocess_data rows).isSome) ∧
    (∀ rows : List RawRow, (∃ r ∈ dropna rows, parseYear r.year = none) →
      preprocess_data rows = none) := by
  constructor
  · intro rows h
    rw [preprocess_data]
    obtain ⟨v, hv⟩ := Option.isSome_iff_exists.mp
      ((parseYears_isSome (dropna rows)).mpr h)
    rw [hv]
    rfl
  · intro rows hex
    obtain ⟨r, hr, hnone⟩ := hex
    rw [preprocess_data]
    cases hps : parseYears (dropna rows) with
    | none => rfl
    | some v =>
      exfalso
      have hall := (parseYears_isSome (dropna rows)).mp (by rw [hps]; rfl)
      have hsome := hall r hr
      rw [hnone] at hsome
      cases hsome

/-- C1 witness: the amended claim at two concrete tables — a malformed debt
amount passes through, a malformed year aborts. -/
theorem C1_witness :
    ((∀ r ∈ dropna exBadData, (parseYear r.year).isSome) ∧
      (preprocess_data exBadData).isSome) ∧
    ((∃ r ∈ dropna exBadYear, parseYear r.year = none) ∧
      preprocess_data exBadYear = none) :=
  ⟨⟨by decide, C1_thm.1 exBadData (by decide)⟩,
   ⟨by decide, C1_thm.2 exBadYear (by decide)⟩⟩

/-- C2: in every country partition of the Canonical Table the first row's
growth is NaN (absent), and every later row whose own and preceding debt
amounts are defined, with nonzero preceding amount, carries growth
`(cur - prev) / prev * 100` computed against the immediately preceding row
of the same country in sorted order. -/
theorem C2_thm (rows : List RawRow) (out : List GRow) (c : String)
    (h : preprocess_data rows = some out) :
    (∀ a, (out.filter (fun r => decide (r.country = c))).head? = some a →
      a.growth = FVal.nan) ∧
    (∀ (i : Nat) (a b : GRow) (p q : ℚ),
      (out.filter (fun r => decide (r.country = c)))[i]? = some a →
      (out.filter (fun r => decide (r.country = c)))[i + 1]? = some b →
      a.data = FVal.fin p → p ≠ 0 → b.data = FVal.fin q →
      b.growth = FVal.fin ((q - p) / p * 100)) := by
  obtain ⟨rs, hpart⟩ := preprocess_partition rows out h c
  constructor
  · intro a ha
    rw [hpart] at ha
    exact scan1_head_nan _ a ha
  · intro i a b p q ha hb hap hp hbq
    rw [hpart] at ha hb
    rw [scan1_adjacent _ _ i a b p q ha hb hap hbq, pct_formula p q hp]

/-- C2 witness: the spec's scenario (100, 150, 120 for 2018-2020) — growth
is [NaN, 50, -20] and each value matches the formula against the previous
year. -/
theorem C2_witness :
    preprocess_data exBGD = some exBGDout ∧
    gBGD1.growth = FVal.nan ∧
    gBGD2.growth = FVal.fin ((150 - 100) / 100 * 100) ∧
    gBGD3.growth = FVal.fin ((120 - 150) / 150 * 100) := by
  refine ⟨by decide, ?_, ?_, ?_⟩
  · exact (C2_thm exBGD exBGDout "Bangladesh" (by decide)).1 gBGD1 (by decide)
  · exact (C2_thm exBGD exBGDout "Bangladesh" (by decide)).2 0 gBGD1 gBGD2 100 150
      (by decide) (by decide) (by decide) (by decide) (by decide)
  · exact (C2_thm exBGD exBGDout "Bangladesh" (by decide)).2 1 gBGD2 gBGD3 150 120
      (by decide) (by decide) (by decide) (by decide) (by decide)

/-- C3, counterexample: a debt amount that fails numeric coercion stays in
the Canonical Table as a missing value — the row is not removed, because the
row-removal step runs before coercion. -/
theorem C3_counterexample :
    preprocess_data exBadData =
      some [{ country := "Bhutan", code := "BTN", year := 2000,
              data := FVal.nan, growth := FVal.nan }] := by
  decide

/-- C3 (amended): after preprocessing no value that was missing in the raw
input remains (such rows are removed, and every year is parsed), but the
debt-amount column may still contain missing values: exactly the non-missing
text entries that failed numeric coercion. -/
theorem C3_thm (rows : List RawRow) (out : List GRow)
    (h : preprocess_data rows = some out) (g : GRow) (hg : g ∈ out) :
    ∃ raw ∈ rows, rowComplete raw ∧ g.country = raw.country ∧ g.code = raw.code ∧
      parseYear raw.year = some g.year ∧ g.data = toNumericCoerce raw.data ∧
      (g.data = FVal.nan → ∃ s, raw.data = Cell.str s ∧ parseNat? s = none) := by
  obtain ⟨raw, hin, hcomp, h1, h2, h3, h4⟩ := preprocess_mem rows out h g hg
  refine ⟨raw, hin, hcomp, h1, h2, h3, h4, ?_⟩
  intro hnan
  rw [h4] at hnan
  cases hd : raw.data with
  | na =>
    exfalso
    simp only [rowComplete, Bool.and_eq_true, decide_eq_true_eq] at hcomp
    exact hcomp.2 hd
  | num q =>
    exfalso
    rw [hd] at hnan
    exact FVal.noConfusion hnan
  | str t =>
    refine ⟨t, rfl, ?_⟩
    rw [hd, toNumericCoerce] at hnan
    by_cases hpos : t ∈ posInfSpellings
    · rw [if_pos hpos] at hnan
      exact FVal.noConfusion hnan
    · rw [if_neg hpos] at hnan
      by_cases hneg : t ∈ negInfSpellings
      · rw [if_pos hneg] at hnan
        exact FVal.noConfusion hnan
      · rw [if_neg hneg] at hnan
        cases hp : parseNat? t with
        | none => rfl
        | some n =>
          exfalso
          rw [hp] at hnan
          exact FVal.noConfusion hnan

/-- C3 witness: the amended claim at the malformed-debt table — the
surviving NaN traces back to the non-missing text entry "abc". -/
theorem C3_witness :
    ∃ raw ∈ exBadData, rowComplete raw ∧
      ({ country := "Bhutan", code := "BTN", year := 2000, data := FVal.nan,
         growth := FVal.nan } : GRow).country = raw.country ∧
      ({ country := "Bhutan", code := "BTN", year := 2000, data := FVal.nan,
         growth := FVal.nan } : GRow).code = raw.code ∧
      parseYear raw.year = some 2000 ∧
      FVal.nan = toNumericCoerce raw.data ∧
      (FVal.nan = FVal.nan → ∃ t, raw.data = Cell.str t ∧ parseNat? t = none) :=
  C3_thm exBadData
    [{ country := "Bhutan", code := "BTN", year := 2000, data := FVal.nan,
       growth := FVal.nan }] (by decide)
    { country := "Bhutan", code := "BTN", year := 2000, data := FVal.nan,
      growth := FVal.nan } (by decide)


/-- C4, counterexample: a zero previous debt amount produces a growth value
of positive infinity — not a null marker — and that infinity is *not*
excluded from the average-growth metric: the mean over a table whose only
growth values are NaN and +inf evaluates to +inf instead of an undefined
result. -/
theorem C4_counterexample :
    (preprocess_data exZero).map (fun l => l.map (fun r => r.growth)) =
      some [FVal.nan, FVal.posInf] ∧
    (preprocess_data exZero).map (fun l => avg_growth l) = some FVal.posInf := by
  refine ⟨by decide, by decide⟩

/-- C4 (amended): when a country's previous debt amount is exactly zero and
the current one is positive, the growth percent is the sentinel +infinity
and the computation does not crash; the average-growth metric excludes NaN
values from the mean, but an infinite growth value is not excluded — it
propagates and makes the mean infinite. -/
theorem C4_thm :
    (∀ (rows : List RawRow) (out : List GRow) (c : String) (i : Nat)
        (a b : GRow) (q : ℚ), preprocess_data rows = some out →
      (out.filter (fun r => decide (r.country = c)))[i]? = some a →
      (out.filter (fun r => decide (r.country = c)))[i + 1]? = some b →
      a.data = FVal.fin 0 → b.data = FVal.fin q → 0 < q →
      b.growth = FVal.posInf) ∧
    (∀ l : List FVal, skipnaMean (FVal.nan :: l) = skipnaMean l) ∧
    (∀ l : List FVal, FVal.posInf ∈ l → FVal.negInf ∉ l →
      skipnaMean l = FVal.posInf) := by
  refine ⟨?_, skipnaMean_nan_cons, skipnaMean_posInf⟩
  intro rows out c i a b q h ha hb hap hbq hq
  obtain ⟨rs, hpart⟩ := preprocess_partition rows out h c
  rw [hpart] at ha hb
  rw [scan1_adjacent _ _ i a b 0 q ha hb hap hbq]
  exact pct_zero_prev_pos q hq

/-- C4 witness: the amended claim at the concrete zero-then-five table and
at concrete mean inputs. -/
theorem C4_witness :
    (({ country := "Nepal", code := "NPL", year := 2001, data := FVal.fin 5,
        growth := FVal.posInf } : GRow).growth = FVal.posInf) ∧
    skipnaMean (FVal.nan :: [FVal.fin 3]) = skipnaMean [FVal.fin 3] ∧
    skipnaMean [FVal.nan, FVal.posInf] = FVal.posInf := by
  refine ⟨?_, C4_thm.2.1 [FVal.fin 3], C4_thm.2.2 [FVal.nan, FVal.posInf]
    (by decide) (by decide)⟩
  exact C4_thm.1 exZero
    [{ country := "Nepal", code := "NPL", year := 2000, data := FVal.fin 0,
       growth := FVal.nan },
     { country := "Nepal", code := "NPL", year := 2001, data := FVal.fin 5,
       growth := FVal.posInf }] "Nepal" 0
    { country := "Nepal", code := "NPL", year := 2000, data := FVal.fin 0,
      growth := FVal.nan }
    { country := "Nepal", code := "NPL", year := 2001, data := FVal.fin 5,
      growth := FVal.posInf } 5
    (by decide) (by decide) (by decide) (by decide) (by decide) (by decide)

/-- C5, counterexample: a non-empty country selection whose Filtered View is
empty slips past the empty-selection guard, and the peak-debt-year
computation raises an uncaught error instead of surfacing a user-facing
message. -/
theorem C5_counterexample :
    filtered_data exView ["Bangladesh"] 2001 2001 = [] ∧
    mainMetrics exView ["Bangladesh"] 2001 2001 = ViewOutcome.rawError := by
  refine ⟨by decide, by decide⟩

/-- C5 (amended): only an empty country selection is guarded — it yields a
user-facing warning and no metric is computed; when the selection is
non-empty but the Filtered View is empty, the peak-debt-year computation
propagates a raw error instead. -/
theorem C5_thm :
    (∀ (t : List GRow) (lo hi : Int),
      mainMetrics t [] lo hi = ViewOutcome.warnEmptySelection) ∧
    (∀ (t : List GRow) (sel : List String) (lo hi : Int), sel ≠ [] →
      filtered_data t sel lo hi = [] →
      mainMetrics t sel lo hi = ViewOutcome.rawError) :=
  ⟨fun t lo hi => mainMetrics_warn t lo hi,
   fun t sel lo hi hsel hfd => mainMetrics_raw_error t sel lo hi hsel hfd⟩

/-- C5 witness: the amended claim at the concrete two-country table. -/
theorem C5_witness :
    mainMetrics exView [] 2000 2001 = ViewOutcome.warnEmptySelection ∧
    ((["Bangladesh"] : List String) ≠ [] ∧
      filtered_data exView ["Bangladesh"] 2001 2001 = [] ∧
      mainMetrics exView ["Bangladesh"] 2001 2001 = ViewOutcome.rawError) :=
  ⟨C5_thm.1 exView 2000 2001,
   by decide,
   by decide,
   C5_thm.2 exView ["Bangladesh"] 2001 2001 (by decide) (by decide)⟩

/-- C6: the Filter Engine is a projection — its output is a subsequence of
the Canonical Table (order preserved) holding exactly the rows whose country
is selected and whose year lies in the inclusive range; it is a no-op when
the selection is all known countries and the range covers every observed
year. -/
theorem C6_thm (t : List GRow) (sel : List String) (lo hi : Int) :
    (filtered_data t sel lo hi).Sublist t ∧
    (∀ r, r ∈ filtered_data t sel lo hi ↔
      r ∈ t ∧ r.country ∈ sel ∧ lo ≤ r.year ∧ r.year ≤ hi) ∧
    ((∀ r ∈ t, r.country ∈ allCountries) → sel = allCountries →
      (∀ r ∈ t, lo ≤ r.year ∧ r.year ≤ hi) → filtered_data t sel lo hi = t) := by
  refine ⟨filtered_data_sublist t sel lo hi,
    fun r => mem_filtered_data t sel lo hi r, ?_⟩
  intro hcover hsel hyears
  apply filtered_data_eq_self
  intro r hr
  exact ⟨hsel ▸ hcover r hr, (hyears r hr).1, (hyears r hr).2⟩

/-- C6 witness: the no-op case at a concrete table whose countries and years
are all covered. -/
theorem C6_witness :
    (∀ r ∈ exView, r.country ∈ allCountries) ∧
    (∀ r ∈ exView, (2000 : Int) ≤ r.year ∧ r.year ≤ 2001) ∧
    filtered_data exView allCountries 2000 2001 = exView :=
  ⟨by decide, by decide,
   (C6_thm exView allCountries 2000 2001).2.2 (by decide) rfl (by decide)⟩

/-- C7: the loader fails overall (and the app halts before the Filter
Engine) exactly when every per-country read fails; a single failure is
skipped and the remaining countries still load; every loaded row is a source
row tagged with its country's display name and code. -/
theorem C7_thm (src : String → Option (List SrcRow)) :
    (load_all_data src = none ↔ ∀ p ∈ COUNTRY_MAPPING, src p.2 = none) ∧
    ((∀ p ∈ COUNTRY_MAPPING, src p.2 = none) → appStart src = AppStart.halted) ∧
    (∀ t, load_all_data src = some t → ∀ r ∈ t,
      ∃ p ∈ COUNTRY_MAPPING, ∃ rs, src p.2 = some rs ∧ ∃ sr ∈ rs, r = tagRow p sr) :=
  ⟨load_all_data_eq_none src,
   fun h => appStart_halted src h,
   fun t ht r hr => load_all_data_mem src t ht r hr⟩

/-- C7 witness: with only the Bangladesh file readable the load succeeds and
every row is tagged with Bangladesh's name and code; with no readable file
the app halts. -/
theorem C7_witness :
    load_all_data exSrc =
      some [{ country := "Bangladesh", code := "BGD", year := Cell.num 2000,
              data := Cell.num 5 }] ∧
    (∃ p ∈ COUNTRY_MAPPING, ∃ rs, exSrc p.2 = some rs ∧ ∃ sr ∈ rs,
      ({ country := "Bangladesh", code := "BGD", year := Cell.num 2000,
         data := Cell.num 5 } : RawRow) = tagRow p sr) ∧
    ((∀ p ∈ COUNTRY_MAPPING, exSrcFail p.2 = none) ∧
      appStart exSrcFail = AppStart.halted) :=
  ⟨by decide,
   (C7_thm exSrc).2.2
     [{ country := "Bangladesh", code := "BGD", year := Cell.num 2000,
        data := Cell.num 5 }] (by decide)
     { country := "Bangladesh", code := "BGD", year := Cell.num 2000,
       data := Cell.num 5 } (by decide),
   ⟨by decide, (C7_thm exSrcFail).2.1 (by decide)⟩⟩


/-- With no infinite debt amount, the float sum over all pivot cells is the
rational sum of their finite parts. -/
theorem pivotTotalF_eq_fin (rows : List GRow)
    (hfin : ∀ r ∈ rows, r.data ≠ FVal.posInf ∧ r.data ≠ FVal.negInf) :
    pivotTotalF rows = FVal.fin (pivotTotal rows) := by
  have hcellfin : ∀ (y : Int) (c : String), ∃ q : ℚ, pivotCell rows y c = FVal.fin q := by
    intro y c
    rw [pivotCell]
    rw [skipnaSum_no_inf]
    · exact ⟨_, rfl⟩
    · intro hmem
      obtain ⟨r, hr, hrd⟩ := List.mem_map.mp hmem
      exact (hfin r ((List.filter_sublist rows).subset hr)).1 hrd
    · intro hmem
      obtain ⟨r, hr, hrd⟩ := List.mem_map.mp hmem
      exact (hfin r ((List.filter_sublist rows).subset hr)).2 hrd
  have hmemfin : ∀ v ∈ pivotCells rows, ∃ q : ℚ, v = FVal.fin q := by
    intro v hv
    obtain ⟨inner, hinner, hvin⟩ := List.mem_flatten.mp hv
    obtain ⟨y, _, hy⟩ := List.mem_map.mp hinner
    rw [← hy] at hvin
    obtain ⟨c, _, hc⟩ := List.mem_map.mp hvin
    obtain ⟨q, hq⟩ := hcellfin y c
    exact ⟨q, by rw [← hc, hq]⟩
  rw [pivotTotalF, skipnaSum_no_inf]
  · congr 1
    rw [pivotCells, List.map_flatten, List.sum_flatten, List.map_map, List.map_map,
      pivotTotal, qsum_eq]
    apply congrArg List.sum
    apply List.map_congr_left
    intro y _
    rw [qsum_eq]
    simp only [Function.comp, List.map_map]
    rfl
  · intro hmem
    obtain ⟨q, hq⟩ := hmemfin _ hmem
    exact FVal.noConfusion hq
  · intro hmem
    obtain ⟨q, hq⟩ := hmemfin _ hmem
    exact FVal.noConfusion hq

/-- A raw table whose debt entries are the texts "inf" and "-inf" for the
same country and year; both coerce to infinities under
`pd.to_numeric(errors='coerce')`. -/
def exInfRaw : List RawRow :=
  [{ country := "Nepal", code := "NPL", year := Cell.num 2000, data := Cell.str "inf" },
   { country := "Nepal", code := "NPL", year := Cell.num 2000, data := Cell.str "-inf" }]

/-- C8, counterexample: on the Canonical Table loaded from `exInfRaw` the
debt column holds +inf and -inf; their single (2000, Nepal) cell aggregates
to NaN and the zero fill rewrites it to 0, so the pivot summed over all
cells is 0 while the total debt sum of the same view is NaN — the claimed
equality fails on a reachable Filtered View. -/
theorem C8_counterexample :
    (preprocess_data exInfRaw).map (fun t => t.map (fun r => r.data)) =
      some [FVal.posInf, FVal.negInf] ∧
    (preprocess_data exInfRaw).map (fun t => pivotTotalF t) = some (FVal.fin 0) ∧
    (preprocess_data exInfRaw).map (fun t => total_debt t) = some FVal.nan := by
  refine ⟨by decide, by decide, by decide⟩

/-- C8 (amended): each pivot cell of a (year, country) combination with no
observation is zero, and for every Filtered View whose debt column contains
no infinite value the zero-filled pivot, summed over all cells, equals the
total debt sum.  The restriction is necessary: a debt entry such as the text
"inf" coerces to an infinity, and when infinities of both signs fall into
one cell its NaN aggregate is rewritten to 0 by the zero fill while the
total debt sum stays NaN. -/
theorem C8_thm (rows : List GRow)
    (hfin : ∀ r ∈ rows, r.data ≠ FVal.posInf ∧ r.data ≠ FVal.negInf) :
    (∀ (y : Int) (c : String),
      rows.filter (fun r => decide (r.year = y) && decide (r.country = c)) = [] →
      pivotCell rows y c = FVal.fin 0) ∧
    pivotTotalF rows = total_debt rows := by
  refine ⟨?_, (pivotTotalF_eq_fin rows hfin).trans (pivotTotal_eq_total rows hfin)⟩
  intro y c hempty
  rw [pivotCell, hempty]
  rfl

/-- C8 witness: the amended claim at a concrete infinity-free two-country
view, where the total is 5 + 3 = 8 and the unobserved (2001, Bangladesh)
cell is zero. -/
theorem C8_witness :
    (∀ r ∈ exView, r.data ≠ FVal.posInf ∧ r.data ≠ FVal.negInf) ∧
    pivotTotalF exView = total_debt exView ∧
    (exView.filter (fun r => decide (r.year = 2001) && decide (r.country = "Bangladesh")) = []) ∧
    pivotCell exView 2001 "Bangladesh" = FVal.fin 0 ∧
    total_debt exView = FVal.fin 8 :=
  ⟨by decide,
   (C8_thm exView (by decide)).2,
   by decide,
   (C8_thm exView (by decide)).1 2001 "Bangladesh" (by decide),
   by decide⟩

/-- C9, counterexample: top-N by growth on a one-row view whose growth value
is NaN (as every country's first row is) returns zero rows, not
min(10, row count) = 1 — rows with undefined values are excluded. -/
theorem C9_counterexample :
    growth_periods exOne = [] ∧ exOne.length = 1 ∧ min 10 exOne.length = 1 := by
  refine ⟨by decide, by decide, by decide⟩

/-- C9 (amended): top-N by debt (N = 10) returns rows sorted descending by
debt amount with ties kept in original row order (first occurrence wins) and
every excluded defined row dominated by every kept row; its length is
min(10, number of rows with a *defined* debt amount) — rows whose value is
NaN are excluded, so the length can fall short of min(10, row count).  The
same holds for top-N by growth over the growth field. -/
theorem C9_thm (rows : List GRow) :
    (List.Pairwise (fun u v => fleB v.data u.data = true) (peak_periods rows) ∧
     (peak_periods rows).length =
       min 10 ((rows.filter (fun r => decide (r.data ≠ FVal.nan))).length) ∧
     (∀ w, (peak_periods rows).filter (fun r => decide (r.data = w)) <+:
       (rows.filter (fun r => decide (r.data ≠ FVal.nan))).filter
         (fun r => decide (r.data = w))) ∧
     (∀ x ∈ rows.filter (fun r => decide (r.data ≠ FVal.nan)),
       x ∉ peak_periods rows → ∀ y ∈ peak_periods rows,
         fleB x.data y.data = true)) ∧
    (List.Pairwise (fun u v => fleB v.growth u.growth = true) (growth_periods rows) ∧
     (growth_periods rows).length =
       min 10 ((rows.filter (fun r => decide (r.growth ≠ FVal.nan))).length) ∧
     (∀ w, (growth_periods rows).filter (fun r => decide (r.growth = w)) <+:
       (rows.filter (fun r => decide (r.growth ≠ FVal.nan))).filter
         (fun r => decide (r.growth = w))) ∧
     (∀ x ∈ rows.filter (fun r => decide (r.growth ≠ FVal.nan)),
       x ∉ growth_periods rows → ∀ y ∈ growth_periods rows,
         fleB x.growth y.growth = true)) :=
  ⟨⟨nlargestBy_sorted 10 (fun r => r.data) rows,
    nlargestBy_length 10 (fun r => r.data) rows,
    fun w => nlargestBy_stable 10 (fun r => r.data) rows w,
    fun x hx hxout y hy =>
      nlargestBy_dominates 10 (fun r => r.data) rows x hx hxout y hy⟩,
   ⟨nlargestBy_sorted 10 (fun r => r.growth) rows,
    nlargestBy_length 10 (fun r => r.growth) rows,
    fun w => nlargestBy_stable 10 (fun r => r.growth) rows w,
    fun x hx hxout y hy =>
      nlargestBy_dominates 10 (fun r => r.growth) rows x hx hxout y hy⟩⟩


/-- Eleven rows with distinct debt amounts 1..11 (growth NaN throughout). -/
def exEleven : List GRow :=
  [{ country := "Nepal", code := "NPL", year := 2001, data := FVal.fin 1, growth := FVal.nan },
   { country := "Nepal", code := "NPL", year := 2002, data := FVal.fin 2, growth := FVal.nan },
   { country := "Nepal", code := "NPL", year := 2003, data := FVal.fin 3, growth := FVal.nan },
   { country := "Nepal", code := "NPL", year := 2004, data := FVal.fin 4, growth := FVal.nan },
   { country := "Nepal", code := "NPL", year := 2005, data := FVal.fin 5, growth := FVal.nan },
   { country := "Nepal", code := "NPL", year := 2006, data := FVal.fin 6, growth := FVal.nan },
   { country := "Nepal", code := "NPL", year := 2007, data := FVal.fin 7, growth := FVal.nan },
   { country := "Nepal", code := "NPL", year := 2008, data := FVal.fin 8, growth := FVal.nan },
   { country := "Nepal", code := "NPL", year := 2009, data := FVal.fin 9, growth := FVal.nan },
   { country := "Nepal", code := "NPL", year := 2010, data := FVal.fin 10, growth := FVal.nan },
   { country := "Nepal", code := "NPL", year := 2011, data := FVal.fin 11, growth := FVal.nan }]

/-- C9 witness: the amended claim at the eleven-row table — the selection
keeps ten rows, is sorted descending, is stable at each value, and the
excluded smallest row is dominated by every kept row. -/
theorem C9_witness :
    (peak_periods exEleven).length =
      min 10 ((exEleven.filter (fun r => decide (r.data ≠ FVal.nan))).length) ∧
    ((peak_periods exEleven).filter (fun r => decide (r.data = FVal.fin 11)) <+:
      (exEleven.filter (fun r => decide (r.data ≠ FVal.nan))).filter
        (fun r => decide (r.data = FVal.fin 11))) ∧
    (({ country := "Nepal", code := "NPL", year := 2001, data := FVal.fin 1,
        growth := FVal.nan } : GRow) ∈
      exEleven.filter (fun r => decide (r.data ≠ FVal.nan))) ∧
    (({ country := "Nepal", code := "NPL", year := 2001, data := FVal.fin 1,
        growth := FVal.nan } : GRow) ∉ peak_periods exEleven) ∧
    (({ country := "Nepal", code := "NPL", year := 2011, data := FVal.fin 11,
        growth := FVal.nan } : GRow) ∈ peak_periods exEleven) ∧
    fleB (FVal.fin 1) (FVal.fin 11) = true :=
  ⟨(C9_thm exEleven).1.2.1,
   (C9_thm exEleven).1.2.2.1 (FVal.fin 11),
   by decide,
   by decide,
   by decide,
   (C9_thm exEleven).1.2.2.2
     { country := "Nepal", code := "NPL", year := 2001, data := FVal.fin 1,
       growth := FVal.nan } (by decide) (by decide)
     { country := "Nepal", code := "NPL", year := 2011, data := FVal.fin 11,
       growth := FVal.nan } (by decide)⟩

/-- The 2019 Bangladesh observation alone, before growth derivation. -/
def rowBGD2019 : Row :=
  { country := "Bangladesh", code := "BGD", year := 2019, data := FVal.fin 150 }

/-- C10: growth is computed once, before filtering, and the Filter Engine
carries rows (growth column included) unchanged; concretely, filtering the
Bangladesh 2018-2020 table to the single year 2019 keeps the growth of 50
computed against the out-of-range year 2018, where recomputing growth on the
filtered rows alone would give NaN. -/
theorem C10_thm :
    (∀ (t : List GRow) (sel : List String) (lo hi : Int) (r : GRow),
      r ∈ filtered_data t sel lo hi → r ∈ t) ∧
    ((preprocess_data exBGD).map (fun t => filtered_data t ["Bangladesh"] 2019 2019)
        = some [gBGD2] ∧
      gBGD2.growth = FVal.fin 50 ∧
      (growthScan [rowBGD2019] []).map (fun r => r.growth) = [FVal.nan]) := by
  refine ⟨?_, by decide, by decide, by decide⟩
  intro t sel lo hi r hr
  exact ((mem_filtered_data t sel lo hi r).mp hr).1

/-- C10 witness: the frame property at the concrete filtered row. -/
theorem C10_witness :
    gBGD2 ∈ filtered_data exBGDout ["Bangladesh"] 2019 2019 ∧ gBGD2 ∈ exBGDout :=
  ⟨by decide, C10_thm.1 exBGDout ["Bangladesh"] 2019 2019 gBGD2 (by decide)⟩

end DebtApp
